import Mathlib

/-!
Verification development for the resilient price-acquisition layer of the
MARABTCTracking repository.

The Python modules `providers.py`, `robust_yahoo_client.py` and
`mnav_backtest.py` are shallowly embedded below.  Wall-clock instants and
durations are rationals (ℚ); prices are rationals; machine dictionaries are
modelled as functions into `Option`; code that may raise returns `Except`;
the nondeterministic environment (HTTP responses, random draws) is passed in
explicitly as oracle parameters.
-/

namespace MaraBtc

/-! ## Ephemeral TTL cache (`providers.py`, class `TTLCache`)

`self._store` is a dict mapping keys to `(val, ts)` pairs; `get` pops and
misses when `time.time() - ts > self.ttl`, `set` overwrites with the current
timestamp.  The current wall-clock time is an explicit argument. -/

structure TTLCache (α : Type) where
  ttl : ℚ
  store : String → Option (α × ℚ)

/-- `TTLCache.get`: returns the value and the (possibly updated) cache.
A stale entry (`now - ts > ttl`) is popped from the store and a miss is
returned. -/
def TTLCache.get {α : Type} (c : TTLCache α) (key : String) (now : ℚ) :
    Option α × TTLCache α :=
  match c.store key with
  | none => (none, c)
  | some (val, ts) =>
      if now - ts > c.ttl then
        (none, { c with store := fun k => if k = key then none else c.store k })
      else
        (some val, c)

/-- `TTLCache.set`: stores `(val, now)` under `key`, overwriting any prior
entry. -/
def TTLCache.set {α : Type} (c : TTLCache α) (key : String) (val : α) (now : ℚ) :
    TTLCache α :=
  { c with store := fun k => if k = key then some (val, now) else c.store k }

/-! ## Price router (`providers.py`, class `PriceRouter`)

`PriceRouter.__init__` reads `FMP_API_KEY` and `ALPHAVANTAGE_API_KEY` from the
environment (empty string when unset), appends `FMPProvider` /
`AlphaVantageProvider` only when the corresponding key is a non-empty (truthy)
string, and always appends `YahooLastResortProvider` last. -/

inductive EquityProvider where
  | fmp
  | alphaVantage
  | yahooLastResort
deriving DecidableEq, Repr

/-- The equity-provider list built by `PriceRouter.__init__` from the two
API-key environment variables (empty string models an unset variable). -/
def buildEquityProviders (fmpKey avKey : String) : List EquityProvider :=
  (if fmpKey ≠ "" then [EquityProvider.fmp] else []) ++
  (if avKey ≠ "" then [EquityProvider.alphaVantage] else []) ++
  [EquityProvider.yahooLastResort]

/-- The only error `PriceRouter.get_equity_price` ever raises:
`RuntimeError(f"All equity providers failed for {symbol}: {last_err}")`.
`lastErr` is `None` before the first attempt. -/
inductive RouterError where
  | allProvidersExhausted (symbol : String) (lastErr : Option String)
deriving DecidableEq, Repr

/-- One provider attempt either yields a price or raises (the raised message
is the string payload).  The router's loop body is a `try/except Exception`,
so every exception from a provider is absorbed into the fallback. -/
abbrev ProviderOutcome := Except String ℚ

/-- The loop of `PriceRouter.get_equity_price`: walk the providers in order,
return the first success, remember the last error; raise the aggregate error
when the list is exhausted.  Also returns how many providers were attempted. -/
def routeEquity (symbol : String) :
    List ProviderOutcome → Option String → Except RouterError ℚ × ℕ
  | [], lastErr => (Except.error (RouterError.allProvidersExhausted symbol lastErr), 0)
  | Except.ok v :: _, _ => (Except.ok v, 1)
  | Except.error e :: rest, _ =>
      let r := routeEquity symbol rest (some e)
      (r.1, r.2 + 1)

/-- `PriceRouter.get_equity_price(symbol)`, with the i-th list element the
outcome the i-th configured provider would produce if attempted. -/
def getEquityPrice (symbol : String) (outcomes : List ProviderOutcome) :
    Except RouterError ℚ × ℕ :=
  routeEquity symbol outcomes none

/-- The `last_err` variable after scanning `outcomes`, starting from a prior
value (only updated on failures). -/
def lastErrorFrom (le : Option String) (outcomes : List ProviderOutcome) :
    Option String :=
  outcomes.foldl (fun acc o => match o with
    | Except.error e => some e
    | Except.ok _ => acc) le

/-- The last error among a list of outcomes, as `get_equity_price` tracks it
in `last_err` (`None` when no failure happened). -/
def lastErrorOf (outcomes : List ProviderOutcome) : Option String :=
  lastErrorFrom none outcomes

/-! ## Circuit breaker (`robust_yahoo_client.py`)

`RobustYahooClient` keeps `circuit_breaker_failures` (int, starts 0),
`circuit_breaker_threshold` (3), `circuit_breaker_timeout` (1800 s) and
`circuit_breaker_reset_time` (`None` until the breaker opens).
`_open_circuit_breaker` is the failure recorder, `_close_circuit_breaker`
the success recorder. -/

structure CircuitBreaker where
  failures : ℕ
  resetTime : Option ℚ
  threshold : ℕ
  timeout : ℚ
deriving DecidableEq, Repr

/-- `_is_circuit_breaker_open`: true iff `circuit_breaker_reset_time` is set
and `time.time() < circuit_breaker_reset_time`. -/
def CircuitBreaker.isOpen (cb : CircuitBreaker) (now : ℚ) : Bool :=
  match cb.resetTime with
  | some rt => decide (now < rt)
  | none => false

/-- `_open_circuit_breaker`: increments the failure count; when it reaches
the threshold, sets `circuit_breaker_reset_time = time.time() + timeout`. -/
def CircuitBreaker.recordFailure (cb : CircuitBreaker) (now : ℚ) : CircuitBreaker :=
  let f := cb.failures + 1
  if f ≥ cb.threshold then
    { cb with failures := f, resetTime := some (now + cb.timeout) }
  else
    { cb with failures := f }

/-- `_close_circuit_breaker`: resets the failure count to 0 and clears
`circuit_breaker_reset_time`. -/
def CircuitBreaker.recordSuccess (cb : CircuitBreaker) : CircuitBreaker :=
  { cb with failures := 0, resetTime := none }

/-- A closed breaker with the `RobustYahooClient.__init__` constants
(threshold 3, timeout 1800 s). -/
def CircuitBreaker.init : CircuitBreaker :=
  { failures := 0, resetTime := none, threshold := 3, timeout := 1800 }

/-- `record_failure` applied once per element of `times` (each element is the
wall-clock instant of that call). -/
def CircuitBreaker.applyFailures (cb : CircuitBreaker) : List ℚ → CircuitBreaker
  | [] => cb
  | t :: ts => (cb.recordFailure t).applyFailures ts

/-! ## `RobustYahooClient._make_request`

The loop `for attempt in range(max_retries)` is modelled with explicit fuel
(`fuel = max_retries - attempt`).  Each iteration checks the breaker, sleeps
the rate limiter, issues `self.session.get` (its outcome supplied by the
oracle `outcomes : ℕ → Outcome`, indexed by the attempt number), stamps
`last_request_time` only when `session.get` returned without raising, and
then dispatches on the status code exactly as the Python does.  Sleeping is
modelled by advancing `now`. -/

/-- The environment's answer to one `session.get` call: either an HTTP
response (status code, whether `_is_valid_json_response` holds, the value
`_parse_retry_after` would return, and how long the round trip took) or a
raised `requests.exceptions.RequestException` after `duration` seconds. -/
inductive Outcome where
  | resp (status : ℕ) (validJson : Bool) (retryAfter : ℚ) (duration : ℚ)
  | exn (duration : ℚ)
deriving DecidableEq, Repr

/-- Elapsed time between issuing the request and its response/exception. -/
def Outcome.duration : Outcome → ℚ
  | Outcome.resp _ _ _ d => d
  | Outcome.exn d => d

/-- Whether `session.get` raised for this outcome. -/
def Outcome.raised : Outcome → Bool
  | Outcome.resp _ _ _ _ => false
  | Outcome.exn _ => true

/-- The number of circuit-breaker updates (`_open_circuit_breaker` or
`_close_circuit_breaker` calls) the `_make_request` dispatch performs for
this outcome: one for a 200/429/403 response, zero for every other status
and for a raised exception. -/
def Outcome.breakerUpdates : Outcome → ℕ
  | Outcome.resp status _ _ _ =>
      if status = 200 ∨ status = 429 ∨ status = 403 then 1 else 0
  | Outcome.exn _ => 0

/-- A transport-style outcome: a raised `RequestException` (timeout,
connection reset) or an HTTP response whose status falls into the
final `else` of `_make_request`'s dispatch (anything other than
200/429/403, e.g. 5xx). -/
def Outcome.isTransient : Outcome → Bool
  | Outcome.resp status _ _ _ =>
      if status = 200 ∨ status = 429 ∨ status = 403 then false else true
  | Outcome.exn _ => true

/-- Mutable client state threaded through `_make_request`: the breaker,
`last_request_time` (0 at construction) and the wall clock. -/
structure ClientState where
  cb : CircuitBreaker
  lastRequestTime : ℚ
  now : ℚ
deriving DecidableEq, Repr

/-- What the trace records about one actually-issued `session.get` call. -/
structure Attempt where
  idx : ℕ
  openAtCheck : Bool
  start : ℚ
  endTime : ℚ
  raised : Bool
  breakerUpdates : ℕ
deriving DecidableEq, Repr

/-- Result of `_make_request`: `some i` models returning the response of
attempt `i`, `none` models `return None`. -/
structure MkResult where
  result : Option ℕ
  state : ClientState
  attempts : List Attempt
deriving DecidableEq, Repr

/-- The body of `_make_request`.  `fuel` is the number of loop iterations
left (`max_retries - attempt`); `attempt` is the Python loop index; `acc`
accumulates the issued attempts in order. -/
def makeRequestAux (outcomes : ℕ → Outcome) (minInterval : ℚ) :
    ℕ → ℕ → ClientState → List Attempt → MkResult
  | 0, _, st, acc => ⟨none, st, acc⟩
  | fuel + 1, attempt, st, acc =>
      if st.cb.isOpen st.now then
        -- circuit open: print and `return None` without any request
        ⟨none, st, acc⟩
      else
        -- rate limiting: sleep the remainder of `min_request_interval`
        let start := max st.now (st.lastRequestTime + minInterval)
        match outcomes attempt with
        | Outcome.resp status validJson retryAfter d =>
            let tEnd := start + d
            -- `self.last_request_time = time.time()` ran: no exception
            if status = 200 then
              if validJson then
                -- `_close_circuit_breaker()` then return the response
                ⟨some attempt, ⟨st.cb.recordSuccess, tEnd, tEnd⟩,
                  acc ++ [⟨attempt, st.cb.isOpen st.now, start, tEnd, false, 1⟩]⟩
              else
                -- invalid JSON: treat as throttled, open breaker, return None
                ⟨none, ⟨st.cb.recordFailure tEnd, tEnd, tEnd⟩,
                  acc ++ [⟨attempt, st.cb.isOpen st.now, start, tEnd, false, 1⟩]⟩
            else if status = 429 then
              -- `_open_circuit_breaker()`, sleep Retry-After, continue
              makeRequestAux outcomes minInterval fuel (attempt + 1)
                ⟨st.cb.recordFailure tEnd, tEnd, tEnd + retryAfter⟩
                (acc ++ [⟨attempt, st.cb.isOpen st.now, start, tEnd, false, 1⟩])
            else if status = 403 then
              -- `_open_circuit_breaker()` then return None
              ⟨none, ⟨st.cb.recordFailure tEnd, tEnd, tEnd⟩,
                acc ++ [⟨attempt, st.cb.isOpen st.now, start, tEnd, false, 1⟩]⟩
            else
              -- other HTTP status: no breaker call, backoff 2^attempt
              -- unless this was the final attempt, continue
              let now₂ := if fuel ≠ 0 then tEnd + 2 ^ attempt else tEnd
              makeRequestAux outcomes minInterval fuel (attempt + 1)
                ⟨st.cb, tEnd, now₂⟩
                (acc ++ [⟨attempt, st.cb.isOpen st.now, start, tEnd, false, 0⟩])
        | Outcome.exn d =>
            -- RequestException: `last_request_time` is NOT updated and the
            -- circuit breaker is not touched
            let tEnd := start + d
            let now₂ := if fuel ≠ 0 then tEnd + 2 ^ attempt else tEnd
            makeRequestAux outcomes minInterval fuel (attempt + 1)
              ⟨st.cb, st.lastRequestTime, now₂⟩
              (acc ++ [⟨attempt, st.cb.isOpen st.now, start, tEnd, true, 0⟩])

/-- `_make_request(url, max_retries)` with `min_request_interval` and the
initial state explicit (defaults: interval 2 s, `last_request_time = 0`). -/
def makeRequest (outcomes : ℕ → Outcome) (minInterval : ℚ) (maxRetries : ℕ)
    (st : ClientState) : MkResult :=
  makeRequestAux outcomes minInterval maxRetries 0 st []

/-! ## `_get_json` (`providers.py`)

`requests.get` has returned `r`; the model keeps the facts the function
inspects: the status code (for `raise_for_status`), whether the lower-cased
content-type header contains `"json"`, whether the stripped body text starts
with `{` or `[`, and the result of `r.json()` (`none` models a body that is
not valid JSON, on which `r.json()` raises). -/

structure HttpResponse (α : Type) where
  status : ℕ
  ctHasJson : Bool
  startsBracket : Bool
  body : Option α

/-- The distinguishable failures of `_get_json`: `raise_for_status` for a
4xx/5xx status, the explicit `RuntimeError("Non-JSON response …")`, and the
`JSONDecodeError` that `r.json()` raises on an unparseable body. -/
inductive GetJsonError where
  | httpError (status : ℕ)
  | nonJsonResponse
  | jsonDecodeError
deriving DecidableEq, Repr

/-- `_get_json(url, …)` after the HTTP round trip produced `r`. -/
def getJson {α : Type} (r : HttpResponse α) : Except GetJsonError α :=
  if r.status ≥ 400 then Except.error (GetJsonError.httpError r.status)
  else if ¬ r.ctHasJson ∧ ¬ r.startsBracket then
    Except.error GetJsonError.nonJsonResponse
  else
    match r.body with
    | some payload => Except.ok payload
    | none => Except.error GetJsonError.jsonDecodeError

/-! ## `RobustYahooClient.get_stock_data`

The dict `{'symbol', 'price', 'market_cap', 'timestamp'}` the method builds,
its pickle cache (`cache/yahoo_<key>.pkl`, valid while the pickled timestamp
is younger than `cache_duration`), and the parse of the quoteSummary body.
The oracle `bodyPrice i` / `bodyCap i` give the values
`summary_detail.get('regularMarketPrice', {}).get('raw')` and
`…get('marketCap', {}).get('raw')` of attempt `i`'s response body. -/

structure StockData where
  symbol : String
  price : ℚ
  marketCap : Option ℚ
  timestamp : ℚ
deriving DecidableEq, Repr

/-- `_get_cache_path`: `os.path.join("cache", f"yahoo_{key}.pkl")`. -/
def yahooCachePath (key : String) : String :=
  "cache/yahoo_" ++ key ++ ".pkl"

/-- The pickle files on disk, path ↦ (pickled data, pickled timestamp). -/
def YahooCacheStore := String → Option (StockData × ℚ)

/-- `_load_from_cache`: the file's pickled `timestamp` must be younger than
`cache_duration` seconds. -/
def loadFromYahooCache (store : YahooCacheStore) (key : String)
    (now cacheDuration : ℚ) : Option StockData :=
  match store (yahooCachePath key) with
  | some (d, ts) => if now - ts < cacheDuration then some d else none
  | none => none

/-- `_save_to_cache`: overwrite the file with `(data, time.time())`. -/
def saveToYahooCache (store : YahooCacheStore) (key : String) (d : StockData)
    (now : ℚ) : YahooCacheStore :=
  fun p => if p = yahooCachePath key then some (d, now) else store p

/-- `get_stock_data(symbol)`: cache first, then `_make_request`; on a `None`
response return `None`; otherwise read the price out of the body and, when
it is present and truthy (non-zero), build, cache and return the dict —
else return `None`. -/
def getStockData (store : YahooCacheStore) (outcomes : ℕ → Outcome)
    (bodyPrice bodyCap : ℕ → Option ℚ) (minInterval cacheDuration : ℚ)
    (maxRetries : ℕ) (symbol : String) (st : ClientState) :
    Option StockData × ClientState × YahooCacheStore :=
  match loadFromYahooCache store symbol st.now cacheDuration with
  | some cached => (some cached, st, store)
  | none =>
      let r := makeRequest outcomes minInterval maxRetries st
      match r.result with
      | none => (none, r.state, store)
      | some i =>
          match bodyPrice i with
          | some p =>
              if p ≠ 0 then
                let d : StockData := ⟨symbol, p, bodyCap i, r.state.now⟩
                (some d, r.state, saveToYahooCache store symbol d r.state.now)
              else
                -- `if price:` is falsy for 0.0: "No price data found"
                (none, r.state, store)
          | none => (none, r.state, store)

/-! ## Persistent cache of `mnav_backtest.py`

`save_to_cache` / `load_from_cache` pickle arbitrary data under
`cache/<filename>`; `is_cache_valid` compares the file's modification-time
age against `max_age_hours * 3600`.  The filesystem is path ↦ (content,
mtime); pickling round-trips exactly. -/

structure FileSystem (α : Type) where
  files : String → Option (α × ℚ)

/-- `get_cache_path`: `os.path.join(CACHE_DIR, filename)` with
`CACHE_DIR = "cache"`. -/
def getCachePath (filename : String) : String :=
  "cache/" ++ filename

/-- `is_cache_valid(cache_path, max_age_hours)`. -/
def isCacheValid {α : Type} (fs : FileSystem α) (path : String)
    (now maxAgeHours : ℚ) : Bool :=
  match fs.files path with
  | none => false
  | some (_, mtime) => decide (now - mtime < maxAgeHours * 3600)

/-- `save_to_cache(data, filename)`: unconditional overwrite; the file's
mtime becomes the current instant. -/
def saveToCache {α : Type} (fs : FileSystem α) (data : α) (filename : String)
    (now : ℚ) : FileSystem α :=
  ⟨fun p => if p = getCachePath filename then some (data, now) else fs.files p⟩

/-- `load_from_cache(filename)` at instant `now` with staleness bound
`maxAgeHours` (`CACHE_DURATION_HOURS = 24` at the call sites). -/
def loadFromCache {α : Type} (fs : FileSystem α) (filename : String)
    (now maxAgeHours : ℚ) : Option α :=
  if isCacheValid fs (getCachePath filename) now maxAgeHours then
    match fs.files (getCachePath filename) with
    | some (data, _) => some data
    | none => none
  else none

/-! ## Mock data fallback (`mnav_backtest.py`)

`create_mock_stock_data` draws pseudo-random daily returns, volatilities,
open jitters and volumes (`np.random`, seeded 42); those draws are the
oracle `MockDraws`.  Dates are modelled as integer day numbers, so
`pd.date_range(start, end, freq='D')` is the inclusive integer range and the
`%Y%m%d` date stamps inside cache-file names are abstracted to `toString`. -/

structure OhlcRow where
  open_ : ℚ
  high : ℚ
  low : ℚ
  close : ℚ
  volume : ℕ
deriving DecidableEq, Repr

/-- A daily price frame: (day, row) pairs in index order. -/
abbrev StockFrame := List (ℤ × OhlcRow)

structure MockDraws where
  returns : List ℚ
  dailyVol : ℕ → ℚ
  openJitter : ℕ → ℚ
  volume : ℕ → ℕ

/-- `pd.date_range(start, end, freq='D')` over integer days (inclusive). -/
def dateRangeDays (start endDay : ℤ) : List ℤ :=
  (List.range (endDay - start + 1).toNat).map (fun i => start + i)

/-- The price walk: `prices = [base]`, then
`prices.append(prices[-1] * (1 + returns[i]))` for `i = 1 … len-1`. -/
def mockPricesAux (p : ℚ) : List ℚ → List ℚ
  | [] => []
  | r :: rs => (p * (1 + r)) :: mockPricesAux (p * (1 + r)) rs

/-- The full `prices` list; `returns[0]` is never consumed, exactly as in
the Python loop starting at index 1. -/
def mockPrices (base : ℚ) (returns : List ℚ) : List ℚ :=
  base :: mockPricesAux base (returns.drop 1)

/-- One OHLC row fabricated from the close `price` and the draws of loop
index `i`. -/
def mockRow (draws : MockDraws) (i : ℕ) (price : ℚ) : OhlcRow :=
  { open_ := price * (1 + draws.openJitter i)
    high := price * (1 + draws.dailyVol i)
    low := price * (1 - draws.dailyVol i)
    close := price
    volume := draws.volume i }

/-- The DataFrame `create_mock_stock_data` builds: dates zipped with the
price walk (base price 100.0), one fabricated OHLC row per day.  The frame
carries no field marking it as synthetic. -/
def mockStockSeries (draws : MockDraws) (start endDay : ℤ) : StockFrame :=
  let dates := dateRangeDays start endDay
  let prices := mockPrices 100 draws.returns
  ((dates.zip prices).enum).map (fun e => (e.2.1, mockRow draws e.1 e.2.2))

/-- The cache filename `f"{symbol.lower()}_{start:%Y%m%d}_{end:%Y%m%d}.pkl"`
used both by `get_historical_stock_data` and by `create_mock_stock_data`
(date formatting abstracted to `toString`). -/
def stockCacheKey (symbol : String) (start endDay : ℤ) : String :=
  symbol.toLower ++ "_" ++ toString start ++ "_" ++ toString endDay ++ ".pkl"

/-- `create_mock_stock_data(start_date, end_date)`: fabricate the frame,
then `save_to_cache(df, cache_key)` — into the very cache real data uses. -/
def createMockStockData (draws : MockDraws) (symbol : String)
    (start endDay : ℤ) (fs : FileSystem StockFrame) (now : ℚ) :
    StockFrame × FileSystem StockFrame :=
  let df := mockStockSeries draws start endDay
  (df, saveToCache fs df (stockCacheKey symbol start endDay) now)

/-- `get_historical_stock_data(start_date, end_date)`: local file, then
persistent cache, then yfinance, then Alpha Vantage, then the alternative
Yahoo endpoint, then IEX (`none` models that source raising / being
skipped); when every real source failed, return `None` under
`force_real_data`, else fabricate, cache and return mock data.  Only the
yfinance success path writes the cache among the real sources. -/
def getHistoricalStockData (localData yfin av yahooAlt iex : Option StockFrame)
    (forceRealData : Bool) (draws : MockDraws) (symbol : String)
    (start endDay : ℤ) (fs : FileSystem StockFrame) (now maxAgeHours : ℚ) :
    Option StockFrame × FileSystem StockFrame :=
  match localData with
  | some d => (some d, fs)
  | none =>
      match loadFromCache fs (stockCacheKey symbol start endDay) now maxAgeHours with
      | some d => (some d, fs)
      | none =>
          match yfin with
          | some d => (some d, saveToCache fs d (stockCacheKey symbol start endDay) now)
          | none =>
              match av with
              | some d => (some d, fs)
              | none =>
                  match yahooAlt with
                  | some d => (some d, fs)
                  | none =>
                      match iex with
                      | some d => (some d, fs)
                      | none =>
                          if forceRealData then (none, fs)
                          else
                            let m := createMockStockData draws symbol start endDay fs now
                            (some m.1, m.2)

/-! ## Helper lemmas -/

theorem routeEquity_first_ok (symbol : String) :
    ∀ (outs : List ProviderOutcome) (le : Option String) (i : ℕ) (v : ℚ),
      outs.get? i = some (Except.ok v) →
      (∀ j, j < i → ∃ e, outs.get? j = some (Except.error e)) →
      routeEquity symbol outs le = (Except.ok v, i + 1) := by
  intro outs
  induction outs with
  | nil => intro le i v h _; simp at h
  | cons o rest ih =>
      intro le i v h hprev
      cases i with
      | zero =>
          simp only [List.get?] at h
          cases h
          rfl
      | succ i =>
          obtain ⟨e, he⟩ := hprev 0 (Nat.succ_pos i)
          simp only [List.get?] at he
          cases he
          simp only [List.get?] at h
          have := ih (some e) i v h (fun j hj => hprev (j + 1) (Nat.succ_lt_succ hj))
          simp [routeEquity, this]

theorem routeEquity_all_fail (symbol : String) :
    ∀ (outs : List ProviderOutcome) (le : Option String),
      (∀ o ∈ outs, ∃ e, o = Except.error e) →
      routeEquity symbol outs le =
        (Except.error (RouterError.allProvidersExhausted symbol
          (lastErrorFrom le outs)), outs.length) := by
  intro outs
  induction outs with
  | nil => intro le _; rfl
  | cons o rest ih =>
      intro le hall
      obtain ⟨e, he⟩ := hall o (List.mem_cons_self o rest)
      subst he
      have := ih (some e) (fun o ho => hall o (List.mem_cons_of_mem _ ho))
      simp [routeEquity, this, lastErrorFrom]

theorem routeEquity_error_shape (symbol : String) :
    ∀ (outs : List ProviderOutcome) (le : Option String) (err : RouterError),
      (routeEquity symbol outs le).1 = Except.error err →
      ∃ lastE, err = RouterError.allProvidersExhausted symbol lastE := by
  intro outs
  induction outs with
  | nil =>
      intro le err h
      simp only [routeEquity] at h
      cases h
      exact ⟨le, rfl⟩
  | cons o rest ih =>
      intro le err h
      cases o with
      | ok v => simp [routeEquity] at h
      | error e =>
          simp only [routeEquity] at h
          exact ih (some e) err h

/-- C1: for every call to `PriceRouter.get_equity_price`, providers are
attempted in priority order; the first success is returned immediately
(`i + 1` providers attempted, so nothing after the first success is tried);
if every provider fails, the single aggregate all-providers-exhausted error
naming the last underlying failure is raised; and any error the router ever
raises has that shape. -/
theorem c1_router_fallback_shortcircuit (symbol : String)
    (outcomes : List ProviderOutcome) :
    (∀ i v, outcomes.get? i = some (Except.ok v) →
      (∀ j, j < i → ∃ e, outcomes.get? j = some (Except.error e)) →
      getEquityPrice symbol outcomes = (Except.ok v, i + 1)) ∧
    ((∀ o ∈ outcomes, ∃ e, o = Except.error e) →
      getEquityPrice symbol outcomes =
        (Except.error (RouterError.allProvidersExhausted symbol
          (lastErrorOf outcomes)), outcomes.length)) ∧
    (∀ err, (getEquityPrice symbol outcomes).1 = Except.error err →
      ∃ lastE, err = RouterError.allProvidersExhausted symbol lastE) := by
  refine ⟨?_, ?_, ?_⟩
  · intro i v h hprev
    exact routeEquity_first_ok symbol outcomes none i v h hprev
  · intro hall
    exact routeEquity_all_fail symbol outcomes none hall
  · intro err h
    exact routeEquity_error_shape symbol outcomes none err h

/-- Witness for C1: with provider outcomes [fail "a", succeed 5, succeed 7]
the router returns 5 after exactly two attempts; with [fail "a", fail "b"]
it raises the aggregate error naming "b". -/
theorem c1_witness :
    getEquityPrice "MARA" [Except.error "a", Except.ok 5, Except.ok 7]
      = (Except.ok 5, 2) ∧
    getEquityPrice "MARA" [Except.error "a", Except.error "b"]
      = (Except.error (RouterError.allProvidersExhausted "MARA" (some "b")), 2) := by
  constructor
  · exact (c1_router_fallback_shortcircuit "MARA"
      [Except.error "a", Except.ok 5, Except.ok 7]).1 1 5 rfl
      (fun j hj => by
        match j, hj with
        | 0, _ => exact ⟨"a", rfl⟩)
  · have h := (c1_router_fallback_shortcircuit "MARA"
      [Except.error "a", Except.error "b"]).2.1
      (by
        intro o ho
        simp only [List.mem_cons, List.mem_singleton] at ho
        rcases ho with h | h | h
        · exact ⟨"a", h⟩
        · exact ⟨"b", h⟩
        · simp at h)
    simpa [lastErrorOf, lastErrorFrom] using h

theorem applyFailures_opens :
    ∀ (ts : List ℚ) (cb : CircuitBreaker) (t : ℚ),
      cb.failures + ts.length = cb.threshold →
      ts.getLast? = some t →
      cb.applyFailures ts =
        { failures := cb.threshold, resetTime := some (t + cb.timeout),
          threshold := cb.threshold, timeout := cb.timeout } := by
  intro ts
  induction ts with
  | nil => intro cb t _ hlast; simp at hlast
  | cons t₀ rest ih =>
      intro cb t hlen hlast
      cases rest with
      | nil =>
          simp only [List.getLast?_singleton, Option.some_inj] at hlast
          subst hlast
          simp only [List.length_singleton] at hlen
          simp [CircuitBreaker.applyFailures, CircuitBreaker.recordFailure, hlen,
            le_refl]
      | cons t₁ rest' =>
          have hlt : cb.failures + 1 < cb.threshold := by
            simp only [List.length_cons] at hlen
            omega
          have hstep : cb.recordFailure t₀ =
              { failures := cb.failures + 1, resetTime := cb.resetTime,
                threshold := cb.threshold, timeout := cb.timeout } := by
            simp [CircuitBreaker.recordFailure, Nat.not_le.2 hlt]
          have hlast' : (t₁ :: rest').getLast? = some t := by
            rwa [List.getLast?_cons_cons] at hlast
          have hlen' : (cb.recordFailure t₀).failures + (t₁ :: rest').length
              = (cb.recordFailure t₀).threshold := by
            rw [hstep]
            simp only [List.length_cons] at hlen ⊢
            omega
          have := ih (cb.recordFailure t₀) t hlen' hlast'
          rw [CircuitBreaker.applyFailures, this, hstep]

/-- C4: starting from a closed breaker with zero failures, after exactly
`threshold` consecutive `record_failure` calls (the last at instant `t`),
`is_open` is true at every instant before `t + cooldown` and false from
`t + cooldown` on — so once the cooldown expires the next attempt is no
longer blocked, regardless of the accumulated failure count. -/
theorem c4_breaker_threshold_cooldown (cb : CircuitBreaker) (ts : List ℚ)
    (t : ℚ) (h0 : cb.failures = 0) (hlen : ts.length = cb.threshold)
    (hlast : ts.getLast? = some t) :
    (cb.applyFailures ts).resetTime = some (t + cb.timeout) ∧
    (∀ now, now < t + cb.timeout → (cb.applyFailures ts).isOpen now = true) ∧
    (∀ now, t + cb.timeout ≤ now → (cb.applyFailures ts).isOpen now = false) := by
  have h := applyFailures_opens ts cb t (by omega) hlast
  rw [h]
  refine ⟨rfl, ?_, ?_⟩
  · intro now hnow
    simp [CircuitBreaker.isOpen, hnow]
  · intro now hnow
    simp [CircuitBreaker.isOpen, not_lt.2 hnow]

/-- Witness for C4: three failures at instants 10, 20, 30 on the stock
breaker (threshold 3, cooldown 1800 s) open it until instant 1830. -/
theorem c4_witness :
    (CircuitBreaker.init.failures = 0 ∧
      ([10, 20, 30] : List ℚ).length = CircuitBreaker.init.threshold ∧
      ([10, 20, 30] : List ℚ).getLast? = some 30) ∧
    (CircuitBreaker.init.applyFailures [10, 20, 30]).resetTime = some 1830 ∧
    (CircuitBreaker.init.applyFailures [10, 20, 30]).isOpen 1000 = true ∧
    (CircuitBreaker.init.applyFailures [10, 20, 30]).isOpen 1830 = false := by
  have h := c4_breaker_threshold_cooldown CircuitBreaker.init [10, 20, 30] 30
    rfl rfl rfl
  refine ⟨⟨rfl, rfl, rfl⟩, ?_, ?_, ?_⟩
  · have := h.1
    norm_num [CircuitBreaker.init] at this ⊢
    exact this
  · have := h.2.1 1000 (by norm_num [CircuitBreaker.init])
    exact this
  · have := h.2.2 1830 (by norm_num [CircuitBreaker.init])
    exact this

/-- C6: `set(k, v)` at `ts` followed by `get(k)` at `t` returns `v` while
`t - ts ≤ ttl`; once `t - ts > ttl` the `get` misses and pops the stale
entry from the store. -/
theorem c6_ttl_cache_get_set {α : Type} (c : TTLCache α) (k : String) (v : α)
    (ts t : ℚ) :
    (t - ts ≤ c.ttl → ((c.set k v ts).get k t).1 = some v) ∧
    (t - ts > c.ttl → ((c.set k v ts).get k t).1 = none ∧
      ((c.set k v ts).get k t).2.store k = none) := by
  constructor
  · intro h
    simp [TTLCache.get, TTLCache.set, not_lt.2 h]
  · intro h
    simp [TTLCache.get, TTLCache.set, h]

/-- Witness for C6: ttl 30 s, `set("BTC", 50000)` at t=0: `get` at t=29
returns 50000, `get` at t=31 misses and drops the entry. -/
theorem c6_witness :
    ((29 : ℚ) - 0 ≤ (30 : ℚ) ∧
      (((⟨30, fun _ => none⟩ : TTLCache ℕ).set "BTC" 50000 0).get "BTC" 29).1
        = some 50000) ∧
    ((31 : ℚ) - 0 > (30 : ℚ) ∧
      (((⟨30, fun _ => none⟩ : TTLCache ℕ).set "BTC" 50000 0).get "BTC" 31).1
        = none ∧
      (((⟨30, fun _ => none⟩ : TTLCache ℕ).set "BTC" 50000 0).get "BTC" 31).2.store "BTC"
        = none) := by
  refine ⟨⟨by norm_num, ?_⟩, ⟨by norm_num, ?_⟩⟩
  · exact (c6_ttl_cache_get_set (⟨30, fun _ => none⟩ : TTLCache ℕ) "BTC" 50000 0 29).1
      (by norm_num)
  · exact (c6_ttl_cache_get_set (⟨30, fun _ => none⟩ : TTLCache ℕ) "BTC" 50000 0 31).2
      (by norm_num)

/-- C9: persisting a historical series with `save_to_cache` and loading it
with `load_from_cache` while the file's age is below `max_age` yields the
identical sequence of (timestamp, price) pairs in the same order. -/
theorem c9_cache_roundtrip (fs : FileSystem (List (ℚ × ℚ)))
    (series : List (ℚ × ℚ)) (filename : String) (tSave tLoad maxAgeHours : ℚ)
    (h : tLoad - tSave < maxAgeHours * 3600) :
    loadFromCache (saveToCache fs series filename tSave) filename tLoad maxAgeHours
      = some series := by
  simp [loadFromCache, saveToCache, isCacheValid, h]

/-- Witness for C9: a two-point series saved at t=0 and loaded at t=600 with
the 24-hour staleness bound comes back unchanged. -/
theorem c9_witness :
    ((600 : ℚ) - 0 < 24 * 3600) ∧
    loadFromCache
      (saveToCache (⟨fun _ => none⟩ : FileSystem (List (ℚ × ℚ)))
        [(1, 50000), (2, 51000)] "btc_20240101_20240102.pkl" 0)
      "btc_20240101_20240102.pkl" 600 24
      = some [(1, 50000), (2, 51000)] := by
  refine ⟨by norm_num, ?_⟩
  exact c9_cache_roundtrip (⟨fun _ => none⟩ : FileSystem (List (ℚ × ℚ)))
    [(1, 50000), (2, 51000)] "btc_20240101_20240102.pkl" 0 600 24 (by norm_num)

/-- C10 (implicit): the equity-provider list built by `PriceRouter.__init__`
is never empty, always ends with the Yahoo last-resort provider (appended
unconditionally), and contains the FMP / Alpha Vantage providers exactly
when their API-key environment variables are non-empty. -/
theorem c10_provider_list_nonempty_yahoo_last (fmpKey avKey : String) :
    buildEquityProviders fmpKey avKey ≠ [] ∧
    (buildEquityProviders fmpKey avKey).getLast?
      = some EquityProvider.yahooLastResort ∧
    EquityProvider.yahooLastResort ∈ buildEquityProviders fmpKey avKey ∧
    (EquityProvider.fmp ∈ buildEquityProviders fmpKey avKey ↔ fmpKey ≠ "") ∧
    (EquityProvider.alphaVantage ∈ buildEquityProviders fmpKey avKey ↔ avKey ≠ "") := by
  by_cases hf : fmpKey = "" <;> by_cases ha : avKey = "" <;>
    simp [buildEquityProviders, hf, ha]

/-- C8: when every real data source fails (local file, persistent cache,
yfinance, Alpha Vantage, alternative Yahoo endpoint, IEX) and the
`force_real_data` flag has its default value `False`, the fetch path returns
the fabricated pseudo-random series to the caller; the result lives in the
very same `StockFrame` shape a real provider returns — no field or tag marks
it as synthetic — and it is written into the same cache file
(`cache/<symbol>_<start>_<end>.pkl`) the yfinance success path writes, with
identical contents under the identical key. -/
theorem c8_mock_fallback_indistinguishable (draws : MockDraws) (symbol : String)
    (start endDay : ℤ) (fs : FileSystem StockFrame) (now maxAgeHours : ℚ)
    (hmiss : loadFromCache fs (stockCacheKey symbol start endDay) now maxAgeHours
      = none) :
    (getHistoricalStockData none none none none none false draws symbol
        start endDay fs now maxAgeHours).1
      = some (mockStockSeries draws start endDay) ∧
    (getHistoricalStockData none none none none none false draws symbol
        start endDay fs now maxAgeHours).2.files
        (getCachePath (stockCacheKey symbol start endDay))
      = some (mockStockSeries draws start endDay, now) ∧
    (∀ d : StockFrame,
      (getHistoricalStockData none (some d) none none none false draws symbol
          start endDay fs now maxAgeHours).2.files
          (getCachePath (stockCacheKey symbol start endDay))
        = some (d, now)) := by
  refine ⟨?_, ?_, ?_⟩
  · simp [getHistoricalStockData, hmiss, createMockStockData]
  · simp [getHistoricalStockData, hmiss, createMockStockData, saveToCache]
  · intro d
    simp [getHistoricalStockData, hmiss, saveToCache]

/-- The concrete mock draws used in witnesses: three daily returns and
constant volatility / jitter / volume draws. -/
def mockDrawsEx : MockDraws :=
  ⟨[0, 1/10, -1/20], fun _ => 1/100, fun _ => 0, fun _ => 5⟩

/-- Witness for C8: with an empty cache directory and every source failing,
the three-day mock frame (closes 100, 110, 104.5) is returned and the same
frame sits in the cache file afterwards. -/
theorem c8_witness :
    loadFromCache (⟨fun _ => none⟩ : FileSystem StockFrame)
        (stockCacheKey "MARA" 0 2) 50 24 = none ∧
    (getHistoricalStockData none none none none none false mockDrawsEx "MARA"
        0 2 ⟨fun _ => none⟩ 50 24).1
      = some (mockStockSeries mockDrawsEx 0 2) ∧
    (getHistoricalStockData none none none none none false mockDrawsEx "MARA"
        0 2 ⟨fun _ => none⟩ 50 24).2.files
        (getCachePath (stockCacheKey "MARA" 0 2))
      = some (mockStockSeries mockDrawsEx 0 2, 50) := by
  have h := c8_mock_fallback_indistinguishable mockDrawsEx "MARA" 0 2
    ⟨fun _ => none⟩ 50 24 rfl
  exact ⟨rfl, h.1, h.2.1⟩

/-- C2 counterexample: a 200 response whose body fails
`_is_valid_json_response` makes `RobustYahooClient._make_request` return
`None` (after recording one breaker failure) rather than raising any
malformed-response error, and `get_stock_data` then hands that `None`
back to its caller. -/
theorem c2_counterexample :
    (makeRequest (fun _ => Outcome.resp 200 false 0 1) 2 3
        ⟨CircuitBreaker.init, 0, 100⟩).result = none ∧
    (makeRequest (fun _ => Outcome.resp 200 false 0 1) 2 3
        ⟨CircuitBreaker.init, 0, 100⟩).state.cb.failures = 1 ∧
    (getStockData (fun _ => none) (fun _ => Outcome.resp 200 false 0 1)
        (fun _ => none) (fun _ => none) 2 60 3 "MARA"
        ⟨CircuitBreaker.init, 0, 100⟩).1 = none := by
  exact ⟨rfl, rfl, rfl⟩

/-- C2 (amended): in `providers.py`, `_get_json` raises a distinguishable
error whenever the body is not valid JSON (and never returns a value, in
particular never null or zero); but in `robust_yahoo_client.py` a malformed
response is NOT raised: `_make_request` returns `None` for a 200 response
with an invalid-JSON body, and `get_stock_data` returns `None` when the
price field is absent from an otherwise valid body. -/
theorem c2_amended_malformed_handling :
    (∀ (α : Type) (r : HttpResponse α), r.body = none →
      ∃ e, getJson r = Except.error e) ∧
    (∀ (outcomes : ℕ → Outcome) (validJson : Bool) (ra d : ℚ)
        (store : YahooCacheStore) (bodyPrice bodyCap : ℕ → Option ℚ)
        (minInterval cacheDuration : ℚ) (mr : ℕ) (st : ClientState)
        (symbol : String),
      loadFromYahooCache store symbol st.now cacheDuration = none →
      st.cb.isOpen st.now = false →
      outcomes 0 = Outcome.resp 200 validJson ra d →
      (validJson = false →
        (getStockData store outcomes bodyPrice bodyCap minInterval
          cacheDuration (mr + 1) symbol st).1 = none) ∧
      (validJson = true → bodyPrice 0 = none →
        (getStockData store outcomes bodyPrice bodyCap minInterval
          cacheDuration (mr + 1) symbol st).1 = none)) := by
  constructor
  · intro α r hb
    unfold getJson
    split
    · exact ⟨_, rfl⟩
    · split
      · exact ⟨_, rfl⟩
      · rw [hb]
        exact ⟨_, rfl⟩
  · intro outcomes validJson ra d store bodyPrice bodyCap minInterval
      cacheDuration mr st symbol hmiss hopen hout
    constructor
    · intro hvj
      subst hvj
      simp [getStockData, hmiss, makeRequest, makeRequestAux, hopen, hout]
    · intro hvj hbp
      subst hvj
      simp [getStockData, hmiss, makeRequest, makeRequestAux, hopen, hout, hbp]

/-- Witness for C2: a response with unparseable body makes `_get_json` raise;
a concrete 200-with-invalid-JSON run and a concrete missing-price run of the
robust client both yield `None`. -/
theorem c2_witness :
    ((⟨200, true, true, none⟩ : HttpResponse ℚ).body = none ∧
      (∃ e, getJson (⟨200, true, true, none⟩ : HttpResponse ℚ)
        = Except.error e)) ∧
    (getStockData (fun _ => none) (fun _ => Outcome.resp 200 false 0 1)
        (fun _ => none) (fun _ => none) 2 60 (2 + 1) "MARA"
        ⟨CircuitBreaker.init, 0, 100⟩).1 = none ∧
    (getStockData (fun _ => none) (fun _ => Outcome.resp 200 true 0 1)
        (fun _ => none) (fun _ => none) 2 60 (2 + 1) "MARA"
        ⟨CircuitBreaker.init, 0, 100⟩).1 = none := by
  refine ⟨⟨rfl, ?_⟩, ?_, ?_⟩
  · exact c2_amended_malformed_handling.1 ℚ ⟨200, true, true, none⟩ rfl
  · exact (c2_amended_malformed_handling.2 (fun _ => Outcome.resp 200 false 0 1)
      false 0 1 (fun _ => none) (fun _ => none) (fun _ => none) 2 60 2
      ⟨CircuitBreaker.init, 0, 100⟩ "MARA" rfl rfl rfl).1 rfl
  · exact (c2_amended_malformed_handling.2 (fun _ => Outcome.resp 200 true 0 1)
      true 0 1 (fun _ => none) (fun _ => none) (fun _ => none) 2 60 2
      ⟨CircuitBreaker.init, 0, 100⟩ "MARA" rfl rfl rfl).2 rfl rfl

/-! ## Trace invariants of `_make_request` -/

/-- Per-attempt facts: the breaker was not open at the pre-attempt check,
the number of breaker updates matches the outcome's 200/429/403
classification, and the recorded raise flag and end time match the
outcome. -/
def AttemptFacts (outcomes : ℕ → Outcome) (a : Attempt) : Prop :=
  a.openAtCheck = false ∧
  a.breakerUpdates = (outcomes a.idx).breakerUpdates ∧
  a.raised = (outcomes a.idx).raised ∧
  a.endTime = a.start + (outcomes a.idx).duration

/-- Rate-limiter spacing between adjacent attempts: when the earlier
request returned without raising, the later one starts at least
`min_request_interval` after the earlier one started. -/
def Rspace (minInterval : ℚ) (a b : Attempt) : Prop :=
  a.raised = false → a.start + minInterval ≤ b.start

/-- Exponential backoff between adjacent attempts: when the earlier attempt
ended in a transport-style outcome, the later one starts no earlier than
`2 ^ attempt` seconds after the earlier one ended. -/
def Rback (outcomes : ℕ → Outcome) (a b : Attempt) : Prop :=
  (outcomes a.idx).isTransient = true → a.endTime + 2 ^ a.idx ≤ b.start

/-- All trace invariants together. -/
def TraceOK (outcomes : ℕ → Outcome) (minInterval : ℚ) (l : List Attempt) : Prop :=
  (∀ a ∈ l, AttemptFacts outcomes a) ∧
  List.Chain' (Rspace minInterval) l ∧
  List.Chain' (Rback outcomes) l

/-- How the last recorded attempt constrains the current client state:
`last_request_time` is at or after a non-raising attempt's start, and the
clock has advanced past a transient attempt's backoff sleep. -/
def LinkOK (outcomes : ℕ → Outcome) (st : ClientState) (l : List Attempt) : Prop :=
  ∀ a ∈ l.getLast?,
    (a.raised = false → a.start ≤ st.lastRequestTime) ∧
    ((outcomes a.idx).isTransient = true → a.endTime + 2 ^ a.idx ≤ st.now)

theorem getLast?_append_singleton {α : Type} (l : List α) (b : α) :
    (l ++ [b]).getLast? = some b := by
  rw [List.getLast?_append_cons]
  rfl

theorem traceOK_append (outcomes : ℕ → Outcome) (minInterval : ℚ)
    (l : List Attempt) (b : Attempt) (hl : TraceOK outcomes minInterval l)
    (hb : AttemptFacts outcomes b)
    (hrel : ∀ a ∈ l.getLast?, Rspace minInterval a b ∧ Rback outcomes a b) :
    TraceOK outcomes minInterval (l ++ [b]) := by
  obtain ⟨hfacts, hsp, hbk⟩ := hl
  refine ⟨?_, ?_, ?_⟩
  · intro a ha
    rcases List.mem_append.1 ha with h | h
    · exact hfacts a h
    · rw [List.mem_singleton.1 h]
      exact hb
  · refine hsp.append (List.chain'_singleton b) ?_
    intro x hx y hy
    simp only [List.head?_cons, Option.mem_def, Option.some_inj] at hy
    rw [← hy]
    exact (hrel x hx).1
  · refine hbk.append (List.chain'_singleton b) ?_
    intro x hx y hy
    simp only [List.head?_cons, Option.mem_def, Option.some_inj] at hy
    rw [← hy]
    exact (hrel x hx).2

theorem makeRequestAux_trace (outcomes : ℕ → Outcome) (minInterval : ℚ)
    (hdur : ∀ i, 0 ≤ (outcomes i).duration) :
    ∀ (fuel attempt : ℕ) (st : ClientState) (acc : List Attempt),
      TraceOK outcomes minInterval acc →
      (fuel ≠ 0 → LinkOK outcomes st acc) →
      TraceOK outcomes minInterval
        (makeRequestAux outcomes minInterval fuel attempt st acc).attempts ∧
      (makeRequestAux outcomes minInterval fuel attempt st acc).attempts.length
        ≤ acc.length + fuel := by
  intro fuel
  induction fuel with
  | zero =>
      intro attempt st acc hacc _
      exact ⟨hacc, by simp [makeRequestAux]⟩
  | succ fuel ih =>
      intro attempt st acc hacc hlink
      have hl : LinkOK outcomes st acc := hlink (Nat.succ_ne_zero fuel)
      by_cases hopen : st.cb.isOpen st.now = true
      · rw [makeRequestAux, if_pos hopen]
        exact ⟨hacc, by show acc.length ≤ acc.length + (fuel + 1); omega⟩
      · rw [makeRequestAux, if_neg hopen]
        rw [Bool.not_eq_true] at hopen
        have hrel : ∀ b : Attempt,
            b.start = max st.now (st.lastRequestTime + minInterval) →
            ∀ a ∈ acc.getLast?, Rspace minInterval a b ∧ Rback outcomes a b := by
          intro b hbs a ha
          constructor
          · intro hra
            have h1 := ((hl a ha).1 hra)
            calc a.start + minInterval
                ≤ st.lastRequestTime + minInterval := by gcongr
              _ ≤ b.start := by rw [hbs]; exact le_max_right _ _
          · intro htr
            have h2 := (hl a ha).2 htr
            calc a.endTime + 2 ^ a.idx ≤ st.now := h2
              _ ≤ b.start := by rw [hbs]; exact le_max_left _ _
        cases ho : outcomes attempt with
        | resp status validJson retryAfter d =>
            simp only
            by_cases h200 : status = 200
            · rw [if_pos h200]
              by_cases hvj : validJson = true
              · rw [if_pos hvj]
                refine ⟨traceOK_append _ _ _ _ hacc ?_ (hrel _ rfl), by simp⟩
                refine ⟨hopen, ?_, ?_, ?_⟩ <;>
                  simp [ho, Outcome.breakerUpdates, Outcome.raised,
                    Outcome.duration, h200]
              · rw [if_neg hvj]
                refine ⟨traceOK_append _ _ _ _ hacc ?_ (hrel _ rfl), by simp⟩
                refine ⟨hopen, ?_, ?_, ?_⟩ <;>
                  simp [ho, Outcome.breakerUpdates, Outcome.raised,
                    Outcome.duration, h200]
            · rw [if_neg h200]
              by_cases h429 : status = 429
              · rw [if_pos h429]
                have hdge : (0 : ℚ) ≤ d := by
                  have := hdur attempt
                  rw [ho] at this
                  exact this
                refine ih (attempt + 1) _ _
                  (traceOK_append _ _ _ _ hacc ?_ (hrel _ rfl)) ?_ |>.imp id ?_
                · refine ⟨hopen, ?_, ?_, ?_⟩ <;>
                    simp [ho, Outcome.breakerUpdates, Outcome.raised,
                      Outcome.duration, h200, h429]
                · intro _
                  intro a ha
                  rw [getLast?_append_singleton] at ha
                  rw [Option.mem_def, Option.some_inj] at ha
                  rw [← ha]
                  constructor
                  · intro _
                    simpa using hdge
                  · intro htr
                    rw [ho] at htr
                    simp [Outcome.isTransient, h429] at htr
                · intro h
                  simp only [List.length_append, List.length_singleton] at h
                  omega
              · rw [if_neg h429]
                by_cases h403 : status = 403
                · rw [if_pos h403]
                  refine ⟨traceOK_append _ _ _ _ hacc ?_ (hrel _ rfl), by simp⟩
                  refine ⟨hopen, ?_, ?_, ?_⟩ <;>
                    simp [ho, Outcome.breakerUpdates, Outcome.raised,
                      Outcome.duration, h200, h403]
                · rw [if_neg h403]
                  have hdge : (0 : ℚ) ≤ d := by
                    have := hdur attempt
                    rw [ho] at this
                    exact this
                  refine ih (attempt + 1) _ _
                    (traceOK_append _ _ _ _ hacc ?_ (hrel _ rfl)) ?_ |>.imp id ?_
                  · refine ⟨hopen, ?_, ?_, ?_⟩ <;>
                      simp [ho, Outcome.breakerUpdates, Outcome.raised,
                        Outcome.duration, h200, h429, h403]
                  · intro hf
                    intro a ha
                    rw [getLast?_append_singleton] at ha
                    rw [Option.mem_def, Option.some_inj] at ha
                    rw [← ha]
                    constructor
                    · intro _
                      simpa using hdge
                    · intro _
                      simp only [if_pos hf]
                      exact le_refl _
                  · intro h
                    simp only [List.length_append, List.length_singleton] at h
                    omega
        | exn d =>
            simp only
            refine ih (attempt + 1) _ _
              (traceOK_append _ _ _ _ hacc ?_ (hrel _ rfl)) ?_ |>.imp id ?_
            · refine ⟨hopen, ?_, ?_, ?_⟩ <;>
                simp [ho, Outcome.breakerUpdates, Outcome.raised, Outcome.duration]
            · intro hf
              intro a ha
              rw [getLast?_append_singleton] at ha
              rw [Option.mem_def, Option.some_inj] at ha
              rw [← ha]
              constructor
              · intro hr
                cases hr
              · intro _
                simp only [if_pos hf]
                exact le_refl _
            · intro h
              simp only [List.length_append, List.length_singleton] at h
              omega

theorem makeRequestAux_transient (outcomes : ℕ → Outcome) (minInterval : ℚ)
    (htrans : ∀ i, (outcomes i).isTransient = true) :
    ∀ (fuel attempt : ℕ) (st : ClientState) (acc : List Attempt),
      st.cb.resetTime = none →
      (makeRequestAux outcomes minInterval fuel attempt st acc).result = none ∧
      (makeRequestAux outcomes minInterval fuel attempt st acc).state.cb = st.cb ∧
      (makeRequestAux outcomes minInterval fuel attempt st acc).attempts.length
        = acc.length + fuel := by
  intro fuel
  induction fuel with
  | zero =>
      intro attempt st acc _
      exact ⟨rfl, rfl, by simp [makeRequestAux]⟩
  | succ fuel ih =>
      intro attempt st acc hcb
      have hopen : ¬ st.cb.isOpen st.now = true := by
        simp [CircuitBreaker.isOpen, hcb]
      rw [makeRequestAux, if_neg hopen]
      cases ho : outcomes attempt with
      | resp status validJson retryAfter d =>
          have ht := htrans attempt
          rw [ho] at ht
          simp only [Outcome.isTransient] at ht
          have hnot : ¬(status = 200 ∨ status = 429 ∨ status = 403) := by
            intro hc
            simp [hc] at ht
          push_neg at hnot
          obtain ⟨h200, h429, h403⟩ := hnot
          simp only
          rw [if_neg h200, if_neg h429, if_neg h403]
          have h := ih (attempt + 1)
            ⟨st.cb, max st.now (st.lastRequestTime + minInterval) + d,
              if fuel ≠ 0 then
                max st.now (st.lastRequestTime + minInterval) + d + 2 ^ attempt
              else max st.now (st.lastRequestTime + minInterval) + d⟩
            (acc ++ [⟨attempt, st.cb.isOpen st.now,
              max st.now (st.lastRequestTime + minInterval),
              max st.now (st.lastRequestTime + minInterval) + d, false, 0⟩])
            hcb
          refine ⟨h.1, h.2.1, ?_⟩
          rw [h.2.2]
          simp only [List.length_append, List.length_singleton]
          omega
      | exn d =>
          simp only
          have h := ih (attempt + 1)
            ⟨st.cb, st.lastRequestTime,
              if fuel ≠ 0 then
                max st.now (st.lastRequestTime + minInterval) + d + 2 ^ attempt
              else max st.now (st.lastRequestTime + minInterval) + d⟩
            (acc ++ [⟨attempt, st.cb.isOpen st.now,
              max st.now (st.lastRequestTime + minInterval),
              max st.now (st.lastRequestTime + minInterval) + d, true, 0⟩])
            hcb
          refine ⟨h.1, h.2.1, ?_⟩
          rw [h.2.2]
          simp only [List.length_append, List.length_singleton]
          omega

/-- C3 counterexample: with the default settings, a first attempt answered
by HTTP 500 completes (a second attempt follows and succeeds), yet that
first attempt performs zero circuit-breaker updates — refuting "exactly one
of record_success()/record_failure() is invoked per attempt" and "no attempt
completes without updating the circuit state".  (`PriceRouter.
get_equity_price` in `providers.py` contains no circuit breaker at all.) -/
theorem c3_counterexample :
    ((makeRequest (fun i => if i = 0 then Outcome.resp 500 true 0 1
        else Outcome.resp 200 true 0 1) 2 3
        ⟨CircuitBreaker.init, 0, 100⟩).attempts.map Attempt.breakerUpdates)
      = [0, 1] ∧
    (makeRequest (fun i => if i = 0 then Outcome.resp 500 true 0 1
        else Outcome.resp 200 true 0 1) 2 3
        ⟨CircuitBreaker.init, 0, 100⟩).result = some 1 :=
  ⟨rfl, rfl⟩

/-- C3 (amended): in `RobustYahooClient._make_request`, `is_open()` is
checked before every attempt and no attempt is issued while the breaker is
open; an attempt answered by 200/429/403 performs exactly one breaker update
but an attempt ending in any other HTTP status or in a raised transport
exception performs none.  (`PriceRouter.get_equity_price` has no circuit
breaker.) -/
theorem c3_amended_breaker_discipline (outcomes : ℕ → Outcome)
    (minInterval : ℚ) (maxRetries : ℕ) (st : ClientState)
    (hdur : ∀ i, 0 ≤ (outcomes i).duration) :
    (∀ a ∈ (makeRequest outcomes minInterval maxRetries st).attempts,
      a.openAtCheck = false ∧
      a.breakerUpdates = (outcomes a.idx).breakerUpdates) ∧
    (st.cb.isOpen st.now = true →
      (makeRequest outcomes minInterval maxRetries st).attempts = [] ∧
      (makeRequest outcomes minInterval maxRetries st).result = none) := by
  constructor
  · intro a ha
    have h := (makeRequestAux_trace outcomes minInterval hdur maxRetries 0 st []
      ⟨by simp, List.chain'_nil, List.chain'_nil⟩
      (fun _ => by simp [LinkOK])).1
    have hf := h.1 a ha
    exact ⟨hf.1, hf.2.1⟩
  · intro hopen
    cases maxRetries with
    | zero => exact ⟨rfl, rfl⟩
    | succ n =>
        rw [makeRequest, makeRequestAux, if_pos hopen]
        exact ⟨rfl, rfl⟩

/-- Concrete outcome oracle for the C3 witness: every attempt is answered
by a well-formed 200 response after one second. -/
def c3wOut : ℕ → Outcome := fun _ => Outcome.resp 200 true 0 1

/-- Witness for C3 (amended): a concrete healthy run in which every recorded
attempt passed a closed-breaker check and made exactly the classified number
of breaker updates. -/
theorem c3_witness :
    (∀ i, 0 ≤ (c3wOut i).duration) ∧
    (∀ a ∈ (makeRequest c3wOut 2 3 ⟨CircuitBreaker.init, 0, 100⟩).attempts,
      a.openAtCheck = false ∧
      a.breakerUpdates = (c3wOut a.idx).breakerUpdates) :=
  ⟨fun i => by norm_num [c3wOut, Outcome.duration],
   (c3_amended_breaker_discipline c3wOut 2 3 ⟨CircuitBreaker.init, 0, 100⟩
     (fun i => by norm_num [c3wOut, Outcome.duration])).1⟩

/-- C5 counterexample: three consecutive HTTP 500 responses exhaust all
`max_retries = 3` attempts, yet the circuit breaker records ZERO failures —
not the claimed exactly-one failure on final exhaustion (failure count still
0 and the breaker still closed afterwards). -/
theorem c5_counterexample :
    (makeRequest (fun _ => Outcome.resp 500 true 0 1) 2 3
      ⟨CircuitBreaker.init, 0, 100⟩).result = none ∧
    (makeRequest (fun _ => Outcome.resp 500 true 0 1) 2 3
      ⟨CircuitBreaker.init, 0, 100⟩).attempts.length = 3 ∧
    (makeRequest (fun _ => Outcome.resp 500 true 0 1) 2 3
      ⟨CircuitBreaker.init, 0, 100⟩).state.cb.failures = 0 ∧
    (makeRequest (fun _ => Outcome.resp 500 true 0 1) 2 3
      ⟨CircuitBreaker.init, 0, 100⟩).state.cb.resetTime = none :=
  ⟨rfl, rfl, rfl, rfl⟩

/-- C5 (amended): for a run in which every attempt ends in a transport-style
outcome (raised exception or non-200/429/403 status), the loop retries at
most `max_retries` attempts, sleeps `2 ^ attempt` (base 1) between
consecutive attempts, returns `None`, and performs NO circuit-breaker update
at all — neither per attempt nor on final exhaustion. -/
theorem c5_amended_transport_retry (outcomes : ℕ → Outcome) (minInterval : ℚ)
    (maxRetries : ℕ) (st : ClientState)
    (hdur : ∀ i, 0 ≤ (outcomes i).duration)
    (htrans : ∀ i, (outcomes i).isTransient = true)
    (hclosed : st.cb.resetTime = none) :
    (makeRequest outcomes minInterval maxRetries st).result = none ∧
    (makeRequest outcomes minInterval maxRetries st).state.cb = st.cb ∧
    (makeRequest outcomes minInterval maxRetries st).attempts.length
      = maxRetries ∧
    List.Chain' (Rback outcomes)
      (makeRequest outcomes minInterval maxRetries st).attempts := by
  have ht := makeRequestAux_transient outcomes minInterval htrans maxRetries
    0 st [] hclosed
  have htr := makeRequestAux_trace outcomes minInterval hdur maxRetries 0 st []
    ⟨by simp, List.chain'_nil, List.chain'_nil⟩ (fun _ => by simp [LinkOK])
  exact ⟨ht.1, ht.2.1, by simpa using ht.2.2, htr.1.2.2⟩

/-- Concrete outcome oracle for the C5 witness: every attempt raises a
transport exception after one second. -/
def c5wOut : ℕ → Outcome := fun _ => Outcome.exn 1

/-- Witness for C5 (amended): a concrete all-transport-error run exhausting
three attempts with the breaker untouched and backoff-spaced attempts. -/
theorem c5_witness :
    ((∀ i, 0 ≤ (c5wOut i).duration) ∧ (∀ i, (c5wOut i).isTransient = true) ∧
      (CircuitBreaker.init.resetTime = none)) ∧
    (makeRequest c5wOut 2 3 ⟨CircuitBreaker.init, 0, 100⟩).result = none ∧
    (makeRequest c5wOut 2 3 ⟨CircuitBreaker.init, 0, 100⟩).state.cb
      = CircuitBreaker.init ∧
    (makeRequest c5wOut 2 3 ⟨CircuitBreaker.init, 0, 100⟩).attempts.length = 3 ∧
    List.Chain' (Rback c5wOut)
      (makeRequest c5wOut 2 3 ⟨CircuitBreaker.init, 0, 100⟩).attempts := by
  refine ⟨⟨fun i => by norm_num [c5wOut, Outcome.duration], fun i => rfl, rfl⟩, ?_⟩
  exact c5_amended_transport_retry c5wOut 2 3 ⟨CircuitBreaker.init, 0, 100⟩
    (fun i => by norm_num [c5wOut, Outcome.duration]) (fun i => rfl) rfl

/-- C7 counterexample: the first request raises instantly (connection
refused); `last_request_time` is then NOT updated, so after the 1-second
backoff the second call starts only 1 second after the first — closer than
`min_request_interval = 2` — refuting the claimed spacing "including calls
whose request ends in an error". -/
theorem c7_counterexample :
    ((makeRequest (fun i => if i = 0 then Outcome.exn 0
        else Outcome.resp 200 true 0 0) 2 3
        ⟨CircuitBreaker.init, 0, 100⟩).attempts.map Attempt.start)
      = [100, 101] ∧
    ((makeRequest (fun i => if i = 0 then Outcome.exn 0
        else Outcome.resp 200 true 0 0) 2 3
        ⟨CircuitBreaker.init, 0, 100⟩).attempts.map Attempt.raised)
      = [true, false] ∧
    (101 : ℚ) - 100 < 2 := by
  refine ⟨?_, ?_, by norm_num⟩ <;>
    norm_num [makeRequest, makeRequestAux, CircuitBreaker.isOpen,
      CircuitBreaker.init, CircuitBreaker.recordSuccess]

/-- C7 (amended): for every pair of consecutive calls issued through the
same client, IF the earlier call's request returned without raising, the
later call starts no earlier than `min_interval` after the earlier one
started; when the earlier request raised, `last_request_time` is not
updated and no such spacing is guaranteed. -/
theorem c7_amended_rate_limiter_spacing (outcomes : ℕ → Outcome)
    (minInterval : ℚ) (maxRetries : ℕ) (st : ClientState)
    (hdur : ∀ i, 0 ≤ (outcomes i).duration) :
    List.Chain' (Rspace minInterval)
      (makeRequest outcomes minInterval maxRetries st).attempts :=
  (makeRequestAux_trace outcomes minInterval hdur maxRetries 0 st []
    ⟨by simp, List.chain'_nil, List.chain'_nil⟩
    (fun _ => by simp [LinkOK])).1.2.1

/-- Concrete outcome oracle for the C7 witness: one 429 then 200s, all
responses received (no raise), each after one second. -/
def c7wOut : ℕ → Outcome := fun i =>
  if i = 0 then Outcome.resp 429 true 5 1 else Outcome.resp 200 true 0 1

/-- Witness for C7 (amended): a concrete run whose adjacent non-raising
attempts respect the `min_interval` spacing. -/
theorem c7_witness :
    (∀ i, 0 ≤ (c7wOut i).duration) ∧
    List.Chain' (Rspace 2)
      (makeRequest c7wOut 2 3 ⟨CircuitBreaker.init, 0, 100⟩).attempts :=
  ⟨fun i => by
      by_cases h : i = 0 <;> norm_num [c7wOut, Outcome.duration, h],
   c7_amended_rate_limiter_spacing c7wOut 2 3 ⟨CircuitBreaker.init, 0, 100⟩
     (fun i => by by_cases h : i = 0 <;> norm_num [c7wOut, Outcome.duration, h])⟩

end MaraBtc
